import Mathlib

/-!
Shallow embedding of `scripts/summarize_failure.py`, a single-file CI
failure summarizer: it resolves the pull request of a failed workflow run,
lists the failed jobs, extracts the failing step's log lines from each
job's log archive, and posts one comment.

Conventions of the embedding:
* Python strings are Lean `String`s.  `str.splitlines()` is modelled for
  newline-terminated text (`\n` separators), which is the shape of the log
  texts this script processes; `"pat" in s` is modelled by `strContains`.
* HTTP effects are made explicit: functions receive the decoded response
  payloads as parameters, and observable side effects (which endpoint was
  queried, which job logs were fetched, what was printed) are returned as
  extra components.
* JSON `dict.get(key, default)` on a possibly missing key is modelled with
  `Option` plus `Option.getD`.
-/

/-- Helper for substring search over character lists: true iff `pat` occurs
as a contiguous run inside the given list. -/
def hasSubstrAux (pat : List Char) : List Char → Bool
  | [] => pat.isEmpty
  | c :: rest => pat.isPrefixOf (c :: rest) || hasSubstrAux pat rest

/-- Python `pat in s` substring containment test. -/
def strContains (s pat : String) : Bool :=
  hasSubstrAux pat.data s.data

/-- Character-level worker for `splitlines`: `acc` holds the current line's
characters in reverse.  At a newline the accumulated line is emitted; at the
end of the input the final accumulated line is emitted only if nonempty, so
a trailing newline produces no empty final line, as in Python. -/
def splitlinesAux : List Char → List Char → List String
  | [], acc => if acc.isEmpty then [] else [String.mk acc.reverse]
  | c :: rest, acc =>
    if c = '\n' then String.mk acc.reverse :: splitlinesAux rest []
    else splitlinesAux rest (c :: acc)

/-- Python `str.splitlines()` restricted to `\n` line terminators (the shape
of the log text this script processes): splits on newlines, yields no empty
final piece for a trailing newline, and `[]` for the empty string. -/
def splitlines (s : String) : List String :=
  splitlinesAux s.data []

/-- The scanning loop of `get_log_for_failed_step` (source lines 111-121):
walks the lines with an `in_step_log` flag; a line containing either start
marker sets the flag and is skipped (`continue`); a line containing the end
marker while the flag is set stops the scan (`break`); any other line is
collected iff the flag is set. -/
def collectStep (start_marker alt_start_marker end_marker : String) :
    List String → Bool → List String
  | [], _ => []
  | line :: rest, in_step_log =>
    if strContains line start_marker || strContains line alt_start_marker then
      collectStep start_marker alt_start_marker end_marker rest true
    else if strContains line end_marker && in_step_log then
      []
    else if in_step_log then
      line :: collectStep start_marker alt_start_marker end_marker rest true
    else
      collectStep start_marker alt_start_marker end_marker rest false

/-- Embedding of `get_log_for_failed_step(full_log, step_name)` (source
lines 102-127): split the log into lines, scan for the group markers of the
named step, and if the collected slice is empty fall back to the last 50
lines (`log_lines[-50:]`). -/
def get_log_for_failed_step (full_log : String) (step_name : String) : String :=
  let log_lines := splitlines full_log
  let start_marker := "##[group]Run " ++ step_name
  let alt_start_marker := "##[group]" ++ step_name
  let end_marker := "##[endgroup]"
  let step_log_lines := collectStep start_marker alt_start_marker end_marker log_lines false
  if step_log_lines.isEmpty then
    String.intercalate "\n" (log_lines.drop (log_lines.length - 50))
  else
    String.intercalate "\n" step_log_lines

/-- A line triggers the start boundary of `step_name` iff it contains the
`##[group]Run` marker or the alternate marker without the `Run` word. -/
def isStartLine (step_name line : String) : Bool :=
  strContains line ("##[group]Run " ++ step_name) ||
    strContains line ("##[group]" ++ step_name)

/-- A line triggers the end boundary iff it contains `##[endgroup]`. -/
def isEndLine (line : String) : Bool :=
  strContains line "##[endgroup]"

/-- A pull-request payload, reduced to the one field the script reads from
it (`pr["number"]`). -/
structure PullRequest where
  number : Nat
deriving DecidableEq

/-- A step payload: display name and `step.get("conclusion")` (absent keys
and JSON `null` are both `none`). -/
structure Step where
  name : String
  conclusion : Option String
deriving DecidableEq

/-- A job payload, reduced to the fields the script reads: `job["id"]`,
`job["name"]`, `job.get("conclusion")`, `job.get("steps", [])` (modelled as
`Option` to keep the missing-key default visible), `job["html_url"]`, and
the `run_url` / `run_attempt` fields used in the comment header. -/
structure Job where
  id : Nat
  name : String
  conclusion : Option String
  steps : Option (List Step)
  html_url : String
  run_url : String
  run_attempt : Nat
deriving DecidableEq

/-- An HTTP response as far as the script observes it: status code and
body text.  `httpx.Response.raise_for_status()` raises exactly when the
status is not 2xx. -/
structure HttpResponse where
  status : Nat
  text : String
deriving DecidableEq

/-- Embedding of `get_pr_for_workflow_run` (source lines 17-47).  The HTTP
layer is made explicit: `pull_requests` is the `pull_requests` array of the
fetched workflow-run resource (a missing or null array is `[]`, matching
Python truthiness), and `commit_pulls` is what the by-commit endpoint
`GET /repos/../commits/{sha}/pulls` would return.  The `Bool` component
records whether that second endpoint was queried. -/
def get_pr_for_workflow_run {α : Type} (pull_requests commit_pulls : List α) :
    Option α × Bool :=
  match pull_requests with
  | p :: _ => (some p, false)
  | [] =>
    match commit_pulls with
    | [] => (none, true)
    | q :: _ => (some q, true)

/-- Embedding of `get_failed_jobs` (source lines 50-63): `response_jobs` is
the `jobs` field of the decoded response, `none` when the field is absent
(`response.json().get("jobs", [])`); the result keeps exactly the jobs
whose `conclusion` equals `"failure"`, in order. -/
def get_failed_jobs (response_jobs : Option (List Job)) : List Job :=
  let jobs := response_jobs.getD []
  jobs.filter fun job => job.conclusion == some "failure"

/-- An entry of the downloaded log archive: its name and the result of
reading and decoding its bytes.  `decode("utf-8", errors="ignore")` is
total (invalid byte sequences are dropped, never raised), so `.ok` carries
the decoded text and `.error` carries the message of an exception raised
while reading the entry (source lines 78-83). -/
structure ArchiveEntry where
  filename : String
  read : Except String String

/-- Embedding of `get_job_logs` (source lines 65-85), starting from the
decompressed archive: entries whose name contains a path separator are
skipped; each readable entry's text is appended with a trailing newline;
a failing read appends the inline placeholder instead; the accumulated
text is returned with leading and trailing whitespace stripped. -/
def get_job_logs (entries : List ArchiveEntry) : String :=
  (entries.foldl
    (fun log_content entry =>
      if strContains entry.filename "/" then log_content
      else
        match entry.read with
        | .ok text => log_content ++ text ++ "\n"
        | .error e =>
          log_content ++ ("Could not read log file " ++ entry.filename ++ ": " ++ e ++ "\n"))
    "").trim

/-- True iff the archive entry sits at archive root, i.e. its name contains
no `/` (`if "/" not in filename`). -/
def topLevel (entry : ArchiveEntry) : Bool :=
  !(strContains entry.filename "/")

/-- The text one archive entry contributes to the accumulated log. -/
def entryText (entry : ArchiveEntry) : String :=
  match entry.read with
  | .ok text => text ++ "\n"
  | .error e => "Could not read log file " ++ entry.filename ++ ": " ++ e ++ "\n"

/-- Embedding of `post_comment` (source lines 87-100): returns the lines
printed to stdout and the resulting process exit contribution — `0` when
the POST succeeded (the function returns normally), `1` when
`raise_for_status` raised and the handler called `sys.exit(1)`. -/
def post_comment (pr_number : Nat) (resp : HttpResponse) : List String × Nat :=
  if 200 ≤ resp.status ∧ resp.status ≤ 299 then
    (["Posting comment to PR #" ++ toString pr_number ++ "...",
      "Successfully posted comment."], 0)
  else
    (["Posting comment to PR #" ++ toString pr_number ++ "...",
      "Error posting comment: " ++ toString resp.status,
      "Response: " ++ resp.text], 1)

/-- The inline loop of `main` locating the failing step (source lines
158-162): the first step whose `conclusion` equals `"failure"`, in listing
order. -/
def find_failing_step : List Step → Option Step
  | [] => none
  | st :: rest =>
    if st.conclusion == some "failure" then some st else find_failing_step rest

/-- One iteration of the per-job loop of `main` (source lines 153-176):
returns the section text appended to the comment body and the list of job
ids whose logs were fetched during the iteration (empty when no failing
step was found, so no log fetch happens).  `fetch_logs` stands for
`get_job_logs(client, job_id)`. -/
def process_job (fetch_logs : Nat → String) (job : Job) : String × List Nat :=
  match find_failing_step (job.steps.getD []) with
  | none =>
    ("### ‚ö†Ô∏è Job: `" ++ job.name ++ "`\n" ++
      ("Could not determine the exact failing step. <" ++ job.html_url ++ "|View Full Log>\n\n"),
      [])
  | some failing_step =>
    let full_logs := fetch_logs job.id
    let step_logs := get_log_for_failed_step full_logs failing_step.name
    ("### ‚ùå Job: `" ++ job.name ++ "` / Step: `" ++ failing_step.name ++ "`\n\n" ++
      ("```\n" ++ step_logs.trim ++ "\n```\n") ++
      ("<" ++ job.html_url ++ "|View Full Log>\n\n"),
      [job.id])

/-- The observable outcome of one run of `main`: the process exit code, the
comment body posted (`none` on the early exits), and the ids of the jobs
whose logs were fetched. -/
structure MainResult where
  exit_code : Nat
  comment : Option String
  fetched_jobs : List Nat
deriving DecidableEq

namespace SummarizeFailure

/-- Embedding of `main` (source lines 130-180).  The HTTP layer is again
explicit: `pull_requests` / `commit_pulls` feed the PR resolver,
`response_jobs` is the `jobs` field of the job-listing response,
`fetch_logs` yields a job's concatenated log text, and `post_resp` is the
response to the final comment POST. -/
def main (pull_requests commit_pulls : List PullRequest)
    (response_jobs : Option (List Job)) (fetch_logs : Nat → String)
    (post_resp : HttpResponse) : MainResult :=
  match (get_pr_for_workflow_run pull_requests commit_pulls).1 with
  | none => ⟨0, none, []⟩
  | some pr =>
    match get_failed_jobs response_jobs with
    | [] => ⟨0, none, []⟩
    | j0 :: rest =>
      let failed_jobs := j0 :: rest
      let header :=
        "## ü§ñ GitHub Actions Failure Analysis for run <" ++ j0.run_url ++ "|#" ++
          toString j0.run_attempt ++ ">\n\n" ++
          "A CI job failed. Here is a summary of the failing step:\n\n"
      let results := failed_jobs.map (process_job fetch_logs)
      let comment_body := header ++ String.join (results.map Prod.fst)
      ⟨(post_comment pr.number post_resp).2, some comment_body,
        (results.map Prod.snd).flatten⟩

end SummarizeFailure

example : get_log_for_failed_step "##[group]Run Build\nX\nY\n##[endgroup]\nz" "Build" = "X\nY" := by
  decide

example : get_log_for_failed_step "a\nb\nc" "Build" = "a\nb\nc" := by
  decide

example : get_log_for_failed_step "##[group]Checkout repository\nX\n##[endgroup]" "Checkout repository" = "X" := by
  decide

lemma collectStep_skip (sm am em : String) (pre rest : List String)
    (h : ∀ l ∈ pre, (strContains l sm || strContains l am) = false) :
    collectStep sm am em (pre ++ rest) false = collectStep sm am em rest false := by
  induction pre with
  | nil => rfl
  | cons l pre ih =>
    have hl := h l (List.mem_cons_self l pre)
    have hrest : ∀ x ∈ pre, (strContains x sm || strContains x am) = false :=
      fun x hx => h x (List.mem_cons_of_mem _ hx)
    simp [collectStep, hl, ih hrest]

lemma collectStep_enter (sm am em line : String) (rest : List String) (b : Bool)
    (h : (strContains line sm || strContains line am) = true) :
    collectStep sm am em (line :: rest) b = collectStep sm am em rest true := by
  simp [collectStep, h]

lemma collectStep_collect (sm am em : String) (body rest : List String)
    (h : ∀ l ∈ body, (strContains l sm || strContains l am) = false ∧ strContains l em = false) :
    collectStep sm am em (body ++ rest) true = body ++ collectStep sm am em rest true := by
  induction body with
  | nil => rfl
  | cons l body ih =>
    have hl := h l (List.mem_cons_self l body)
    have hrest : ∀ x ∈ body, (strContains x sm || strContains x am) = false ∧ strContains x em = false :=
      fun x hx => h x (List.mem_cons_of_mem _ hx)
    simp [collectStep, hl.1, hl.2, ih hrest]

lemma collectStep_stop (sm am em line : String) (rest : List String)
    (h1 : (strContains line sm || strContains line am) = false)
    (h2 : strContains line em = true) :
    collectStep sm am em (line :: rest) true = [] := by
  simp [collectStep, h1, h2]

/-- C1 (amended): when the line sequence of the log decomposes as
`pre ++ [startLine] ++ body ++ [endLine] ++ post` where no `pre` line
contains a start marker, `startLine` contains a start marker, the body is
nonempty and none of its lines contains the end marker or a start marker,
and `endLine` contains the end marker but no start marker, then
`get_log_for_failed_step` returns exactly the body lines in original
order, with the marker lines excluded, and stops at that first end-marker
line regardless of what follows. -/
theorem get_log_for_failed_step_extracts_body
    (step_name full_log : String) (pre body post : List String)
    (startLine endLine : String)
    (hsplit : splitlines full_log = pre ++ startLine :: (body ++ endLine :: post))
    (hpre : ∀ l ∈ pre, isStartLine step_name l = false)
    (hstart : isStartLine step_name startLine = true)
    (hbody : ∀ l ∈ body, isEndLine l = false ∧ isStartLine step_name l = false)
    (hend : isEndLine endLine = true)
    (hendns : isStartLine step_name endLine = false)
    (hne : body ≠ []) :
    get_log_for_failed_step full_log step_name = String.intercalate "\n" body := by
  have hcollect :
      collectStep ("##[group]Run " ++ step_name) ("##[group]" ++ step_name) "##[endgroup]"
        (splitlines full_log) false = body := by
    rw [hsplit]
    rw [collectStep_skip _ _ _ pre _ (fun l hl => hpre l hl)]
    rw [collectStep_enter _ _ _ _ _ _ hstart]
    rw [collectStep_collect _ _ _ body _ (fun l hl => ⟨(hbody l hl).2, (hbody l hl).1⟩)]
    rw [collectStep_stop _ _ _ endLine post hendns hend]
    exact List.append_nil body
  simp only [get_log_for_failed_step, hcollect]
  have : body.isEmpty = false := by
    cases body with
    | nil => exact absurd rfl hne
    | cons a l => rfl
  simp [this]

/-- Witness for C1's amended theorem at a concrete log. -/
theorem get_log_for_failed_step_extracts_body_witness :
    get_log_for_failed_step "a\n##[group]Run Build\nX\nY\n##[endgroup]\nz" "Build" =
      String.intercalate "\n" ["X", "Y"] :=
  get_log_for_failed_step_extracts_body "Build" _ ["a"] ["X", "Y"] ["z"]
    "##[group]Run Build" "##[endgroup]" (by decide) (by decide) (by decide)
    (by decide) (by decide) (by decide) (by decide)

/-- Counterexample to C1 as stated: the log decomposes with start line
`##[group]Run Build`, body `["X", "echo ##[group]Run Build", "Y"]` (no body
line contains the group-close marker) and end line `##[endgroup]`, yet the
function drops the body line that happens to contain a start marker and
returns `"X\nY"` instead of all three body lines. -/
theorem get_log_for_failed_step_c1_counterexample :
    splitlines "##[group]Run Build\nX\necho ##[group]Run Build\nY\n##[endgroup]" =
      ["##[group]Run Build", "X", "echo ##[group]Run Build", "Y", "##[endgroup]"] ∧
    isStartLine "Build" "##[group]Run Build" = true ∧
    isEndLine "X" = false ∧
    isEndLine "echo ##[group]Run Build" = false ∧
    isEndLine "Y" = false ∧
    isEndLine "##[endgroup]" = true ∧
    get_log_for_failed_step "##[group]Run Build\nX\necho ##[group]Run Build\nY\n##[endgroup]"
        "Build" = "X\nY" ∧
    "X\nY" ≠ String.intercalate "\n" ["X", "echo ##[group]Run Build", "Y"] := by
  decide

/-- C2: when no line of the log contains a start marker for the step, the
function returns the last 50 lines joined back together, and in particular
the whole log when it has at most 50 lines. -/
theorem get_log_for_failed_step_fallback_no_start
    (step_name full_log : String)
    (h : ∀ l ∈ splitlines full_log, isStartLine step_name l = false) :
    get_log_for_failed_step full_log step_name =
      String.intercalate "\n"
        ((splitlines full_log).drop ((splitlines full_log).length - 50)) ∧
    ((splitlines full_log).length ≤ 50 →
      get_log_for_failed_step full_log step_name =
        String.intercalate "\n" (splitlines full_log)) := by
  have hcollect :
      collectStep ("##[group]Run " ++ step_name) ("##[group]" ++ step_name) "##[endgroup]"
        (splitlines full_log) false = [] := by
    have := collectStep_skip ("##[group]Run " ++ step_name) ("##[group]" ++ step_name)
      "##[endgroup]" (splitlines full_log) [] (fun l hl => h l hl)
    simpa using this
  have hmain : get_log_for_failed_step full_log step_name =
      String.intercalate "\n"
        ((splitlines full_log).drop ((splitlines full_log).length - 50)) := by
    simp [get_log_for_failed_step, hcollect]
  refine ⟨hmain, fun hle => ?_⟩
  rw [hmain, Nat.sub_eq_zero_of_le hle, List.drop_zero]

/-- Witness for C2 at a concrete marker-free log. -/
theorem get_log_for_failed_step_fallback_no_start_witness :
    get_log_for_failed_step "a\nb\nc" "Build" =
      String.intercalate "\n" ((splitlines "a\nb\nc").drop ((splitlines "a\nb\nc").length - 50)) :=
  (get_log_for_failed_step_fallback_no_start "Build" "a\nb\nc" (by decide)).1

/-- C9: the fallback is triggered by an empty collected slice, not by the
absence of a start marker: when a start-marker line is immediately followed
by an end-marker line (so the step body has zero lines), the function
returns the last-50-lines fallback of the full log, not the empty string. -/
theorem get_log_for_failed_step_fallback_empty_slice
    (step_name full_log : String) (pre post : List String)
    (startLine endLine : String)
    (hsplit : splitlines full_log = pre ++ startLine :: endLine :: post)
    (hpre : ∀ l ∈ pre, isStartLine step_name l = false)
    (hstart : isStartLine step_name startLine = true)
    (hend : isEndLine endLine = true)
    (hendns : isStartLine step_name endLine = false) :
    get_log_for_failed_step full_log step_name =
      String.intercalate "\n"
        ((splitlines full_log).drop ((splitlines full_log).length - 50)) := by
  have hcollect :
      collectStep ("##[group]Run " ++ step_name) ("##[group]" ++ step_name) "##[endgroup]"
        (splitlines full_log) false = [] := by
    rw [hsplit]
    rw [collectStep_skip _ _ _ pre _ (fun l hl => hpre l hl)]
    rw [collectStep_enter _ _ _ _ _ _ hstart]
    exact collectStep_stop _ _ _ endLine post hendns hend
  simp [get_log_for_failed_step, hcollect]

lemma string_join_cons (s : String) (l : List String) :
    String.join (s :: l) = s ++ String.join l := by
  apply String.ext
  simp

lemma string_join_append (l₁ l₂ : List String) :
    String.join (l₁ ++ l₂) = String.join l₁ ++ String.join l₂ := by
  apply String.ext
  simp

lemma get_job_logs_foldl_eq (entries : List ArchiveEntry) (acc : String) :
    entries.foldl
      (fun log_content entry =>
        if strContains entry.filename "/" then log_content
        else
          match entry.read with
          | .ok text => log_content ++ text ++ "\n"
          | .error e =>
            log_content ++ ("Could not read log file " ++ entry.filename ++ ": " ++ e ++ "\n"))
      acc = acc ++ String.join ((entries.filter topLevel).map entryText) := by
  induction entries generalizing acc with
  | nil => exact (String.append_empty acc).symm
  | cons e rest ih =>
    by_cases hc : strContains e.filename "/" = true
    · have ht : topLevel e = false := by simp [topLevel, hc]
      simp only [List.foldl_cons, hc, if_true, List.filter_cons, ht]
      exact ih acc
    · have hc' : strContains e.filename "/" = false := by
        simpa using hc
      have ht : topLevel e = true := by simp [topLevel, hc']
      cases hr : e.read with
      | ok text =>
        have he : entryText e = text ++ "\n" := by
          simp [entryText, hr]
        simp only [List.foldl_cons, hc', Bool.false_eq_true, if_false, hr,
          List.filter_cons, ht, if_true, List.map_cons, string_join_cons, he]
        rw [ih]
        apply String.ext
        simp
      | error msg =>
        have he : entryText e = "Could not read log file " ++ e.filename ++ ": " ++ msg ++ "\n" := by
          simp [entryText, hr]
        simp only [List.foldl_cons, hc', Bool.false_eq_true, if_false, hr,
          List.filter_cons, ht, if_true, List.map_cons, string_join_cons, he]
        rw [ih]
        apply String.ext
        simp

/-- Witness for C9: a start marker is present, the collected slice is empty,
and the function returns the whole (two-line) log, not the empty string. -/
theorem get_log_for_failed_step_fallback_empty_slice_witness :
    get_log_for_failed_step "##[group]Run Build\n##[endgroup]" "Build" =
      String.intercalate "\n"
        ((splitlines "##[group]Run Build\n##[endgroup]").drop
          ((splitlines "##[group]Run Build\n##[endgroup]").length - 50)) ∧
    get_log_for_failed_step "##[group]Run Build\n##[endgroup]" "Build" ≠ "" :=
  ⟨get_log_for_failed_step_fallback_empty_slice "Build" _ [] []
      "##[group]Run Build" "##[endgroup]" (by decide) (by decide) (by decide)
      (by decide) (by decide),
    by decide⟩

/-- C3: if the workflow run's embedded pull-request list is non-empty the
resolver returns its first element without querying the by-commit endpoint
(second component `false`); otherwise it queries that endpoint (second
component `true`) and returns its first entry when one exists and `none`
otherwise. -/
theorem get_pr_for_workflow_run_spec {α : Type} (pull_requests commit_pulls : List α) :
    get_pr_for_workflow_run pull_requests commit_pulls =
      if pull_requests.isEmpty then (commit_pulls.head?, true)
      else (pull_requests.head?, false) := by
  cases pull_requests <;> cases commit_pulls <;> simp [get_pr_for_workflow_run]

/-- C4: `get_failed_jobs` is a stable, order-preserving filter: its result
is a sublist of the input (hence in original listing order), every returned
job has conclusion `"failure"`, every failed job of the input is returned,
and it satisfies the step equation of a filter on the conclusion field. -/
theorem get_failed_jobs_spec :
    (∀ jobs : List Job,
      (get_failed_jobs (some jobs)).Sublist jobs ∧
      (∀ j ∈ get_failed_jobs (some jobs), j.conclusion = some "failure") ∧
      (∀ j ∈ jobs, j.conclusion = some "failure" → j ∈ get_failed_jobs (some jobs))) ∧
    (∀ (j : Job) (js : List Job),
      get_failed_jobs (some (j :: js)) =
        if j.conclusion = some "failure" then j :: get_failed_jobs (some js)
        else get_failed_jobs (some js)) := by
  constructor
  · intro jobs
    refine ⟨List.filter_sublist jobs, ?_, ?_⟩
    · intro j hj
      have := (List.mem_filter.1 hj).2
      simpa using this
    · intro j hj hconc
      exact List.mem_filter.2 ⟨hj, by simpa using hconc⟩
  · intro j js
    by_cases h : j.conclusion = some "failure"
    · simp [get_failed_jobs, List.filter_cons, h]
    · simp [get_failed_jobs, List.filter_cons, h]

/-- Witness for C4 on a concrete mixed job list. -/
theorem get_failed_jobs_spec_witness :
    (⟨2, "b", some "failure", some [], "h2", "r", 1⟩ : Job) ∈
      get_failed_jobs (some
        [⟨1, "a", some "success", some [], "h1", "r", 1⟩,
         ⟨2, "b", some "failure", some [], "h2", "r", 1⟩]) :=
  ((get_failed_jobs_spec.1 _).2.2 _ (by decide) rfl)

/-- C10: a jobs response without a `jobs` field yields the empty failed-job
list, exactly as an empty `jobs` list does, and the caller then takes the
clean exit path: exit code 0, no comment posted, no logs fetched. -/
theorem get_failed_jobs_missing_jobs_field :
    get_failed_jobs none = [] ∧
    get_failed_jobs none = get_failed_jobs (some []) ∧
    (∀ (pull_requests commit_pulls : List PullRequest) (fetch_logs : Nat → String)
      (post_resp : HttpResponse),
      SummarizeFailure.main pull_requests commit_pulls none fetch_logs post_resp =
        ⟨0, none, []⟩) := by
  refine ⟨rfl, rfl, fun prs cps fetch resp => ?_⟩
  cases prs with
  | nil => cases cps <;> rfl
  | cons p ps => rfl

/-- C6: `get_job_logs` concatenates exactly the archive-root entries (every
entry whose name contains a path separator is skipped), appending each
entry's text with a trailing newline, and trims leading and trailing
whitespace from the accumulated text. -/
theorem get_job_logs_concat (entries : List ArchiveEntry) :
    get_job_logs entries =
      (String.join ((entries.filter topLevel).map entryText)).trim := by
  unfold get_job_logs
  rw [get_job_logs_foldl_eq entries ""]
  rw [String.empty_append]

/-- C7: a failing read of an archive entry never aborts log extraction: the
entry contributes an inline placeholder naming the file and the error, and
all entries before and after it are still processed normally. -/
theorem get_job_logs_error_placeholder (pre post : List ArchiveEntry)
    (e : ArchiveEntry) (msg : String)
    (htop : strContains e.filename "/" = false)
    (herr : e.read = .error msg) :
    get_job_logs (pre ++ e :: post) =
      (String.join ((pre.filter topLevel).map entryText) ++
        ("Could not read log file " ++ e.filename ++ ": " ++ msg ++ "\n") ++
        String.join ((post.filter topLevel).map entryText)).trim := by
  have ht : topLevel e = true := by
    simp [topLevel, htop]
  have he : entryText e = "Could not read log file " ++ e.filename ++ ": " ++ msg ++ "\n" := by
    simp [entryText, herr]
  unfold get_job_logs
  rw [get_job_logs_foldl_eq _ "", String.empty_append]
  rw [List.filter_append, List.map_append, string_join_append]
  rw [List.filter_cons, ht]
  simp only [if_true, List.map_cons, string_join_cons, he]
  apply congrArg String.trim
  apply String.ext
  simp

/-- Witness for C7: a three-entry archive whose middle entry fails to read;
the placeholder appears between the other two entries' text. -/
theorem get_job_logs_error_placeholder_witness :
    get_job_logs
        [⟨"1_a.txt", .ok "alpha"⟩, ⟨"2_b.txt", .error "bad zip"⟩,
         ⟨"3_c.txt", .ok "gamma"⟩] =
      (String.join (([⟨"1_a.txt", .ok "alpha"⟩] : List ArchiveEntry).filter topLevel |>.map entryText) ++
        ("Could not read log file " ++ "2_b.txt" ++ ": " ++ "bad zip" ++ "\n") ++
        String.join (([⟨"3_c.txt", .ok "gamma"⟩] : List ArchiveEntry).filter topLevel |>.map entryText)).trim :=
  get_job_logs_error_placeholder [⟨"1_a.txt", .ok "alpha"⟩] [⟨"3_c.txt", .ok "gamma"⟩]
    ⟨"2_b.txt", .error "bad zip"⟩ "bad zip" (by decide) rfl

lemma find_failing_step_eq_none (steps : List Step)
    (h : ∀ st ∈ steps, st.conclusion ≠ some "failure") :
    find_failing_step steps = none := by
  induction steps with
  | nil => rfl
  | cons st rest ih =>
    have hst : (st.conclusion == some "failure") = false := by
      simpa using h st (List.mem_cons_self st rest)
    simp only [find_failing_step, hst, Bool.false_eq_true, if_false]
    exact ih fun x hx => h x (List.mem_cons_of_mem _ hx)

lemma find_failing_step_first (pre : List Step) (st : Step) (rest : List Step)
    (hpre : ∀ x ∈ pre, x.conclusion ≠ some "failure")
    (hst : st.conclusion = some "failure") :
    find_failing_step (pre ++ st :: rest) = some st := by
  induction pre with
  | nil =>
    simp [find_failing_step, hst]
  | cons p pre ih =>
    have hp : (p.conclusion == some "failure") = false := by
      simpa using hpre p (List.mem_cons_self p pre)
    simp only [List.cons_append, find_failing_step, hp, Bool.false_eq_true, if_false]
    exact ih fun x hx => hpre x (List.mem_cons_of_mem _ hx)

/-- C8: a failed job with no failing step gets the
"Could not determine the exact failing step" section with a link to its log
page and triggers no log fetch; when failing steps exist, the first one in
listing order is the one whose name is used for the section and for the log
extraction, and exactly that job's logs are fetched. -/
theorem process_job_spec :
    (∀ (fetch_logs : Nat → String) (job : Job),
      (∀ st ∈ job.steps.getD [], st.conclusion ≠ some "failure") →
      process_job fetch_logs job =
        ("### ‚ö†Ô∏è Job: `" ++ job.name ++ "`\n" ++
          ("Could not determine the exact failing step. <" ++ job.html_url ++
            "|View Full Log>\n\n"),
          [])) ∧
    (∀ (fetch_logs : Nat → String) (job : Job) (pre : List Step) (st : Step)
      (rest : List Step),
      job.steps.getD [] = pre ++ st :: rest →
      (∀ x ∈ pre, x.conclusion ≠ some "failure") →
      st.conclusion = some "failure" →
      process_job fetch_logs job =
        ("### ‚ùå Job: `" ++ job.name ++ "` / Step: `" ++ st.name ++ "`\n\n" ++
          ("```\n" ++ (get_log_for_failed_step (fetch_logs job.id) st.name).trim ++
            "\n```\n") ++
          ("<" ++ job.html_url ++ "|View Full Log>\n\n"),
          [job.id])) := by
  constructor
  · intro fetch_logs job h
    have hfind : find_failing_step (job.steps.getD []) = none :=
      find_failing_step_eq_none _ h
    simp [process_job, hfind]
  · intro fetch_logs job pre st rest hsteps hpre hst
    have hfind : find_failing_step (job.steps.getD []) = some st := by
      rw [hsteps]
      exact find_failing_step_first pre st rest hpre hst
    simp [process_job, hfind]

/-- Witness for C8: a job with only successful steps gets the undetermined
section and no fetch; a job whose second and third steps failed uses the
second step (the first failing one) and fetches exactly its own logs. -/
theorem process_job_spec_witness :
    process_job (fun _ => "")
        ⟨7, "build", some "failure", some [⟨"Set up job", some "success"⟩],
          "http://job7", "http://run", 1⟩ =
      ("### ‚ö†Ô∏è Job: `" ++ "build" ++ "`\n" ++
        ("Could not determine the exact failing step. <" ++ "http://job7" ++
          "|View Full Log>\n\n"),
        []) ∧
    process_job (fun _ => "##[group]Run b\nL\n##[endgroup]")
        ⟨8, "test", some "failure",
          some [⟨"a", some "success"⟩, ⟨"b", some "failure"⟩, ⟨"c", some "failure"⟩],
          "http://job8", "http://run", 1⟩ =
      ("### ‚ùå Job: `" ++ "test" ++ "` / Step: `" ++ "b" ++ "`\n\n" ++
        ("```\n" ++ (get_log_for_failed_step "##[group]Run b\nL\n##[endgroup]" "b").trim ++
          "\n```\n") ++
        ("<" ++ "http://job8" ++ "|View Full Log>\n\n"),
        [8]) :=
  ⟨process_job_spec.1 (fun _ => "")
      ⟨7, "build", some "failure", some [⟨"Set up job", some "success"⟩],
        "http://job7", "http://run", 1⟩ (by decide),
    process_job_spec.2 (fun _ => "##[group]Run b\nL\n##[endgroup]")
      ⟨8, "test", some "failure",
        some [⟨"a", some "success"⟩, ⟨"b", some "failure"⟩, ⟨"c", some "failure"⟩],
        "http://job8", "http://run", 1⟩
      [⟨"a", some "success"⟩] ⟨"b", some "failure"⟩ [⟨"c", some "failure"⟩]
      (by decide) (by decide) rfl⟩

/-- C5: the process exits 0 on normal completion, including the early exits
when no pull request is resolved or no failed jobs are found; when failed
jobs exist it exits 1 exactly when the comment POST has a non-2xx status,
in which case the status code and response text are printed. -/
theorem main_exit_code_spec :
    (∀ (prs cps : List PullRequest) (rj : Option (List Job))
      (fetch : Nat → String) (resp : HttpResponse),
      (get_pr_for_workflow_run prs cps).1 = none →
      (SummarizeFailure.main prs cps rj fetch resp).exit_code = 0) ∧
    (∀ (prs cps : List PullRequest) (rj : Option (List Job))
      (fetch : Nat → String) (resp : HttpResponse),
      get_failed_jobs rj = [] →
      (SummarizeFailure.main prs cps rj fetch resp).exit_code = 0) ∧
    (∀ (prs cps : List PullRequest) (rj : Option (List Job))
      (fetch : Nat → String) (resp : HttpResponse),
      (get_pr_for_workflow_run prs cps).1 ≠ none →
      get_failed_jobs rj ≠ [] →
      ((SummarizeFailure.main prs cps rj fetch resp).exit_code =
        if 200 ≤ resp.status ∧ resp.status ≤ 299 then 0 else 1) ∧
      ((SummarizeFailure.main prs cps rj fetch resp).exit_code = 1 ↔
        ¬(200 ≤ resp.status ∧ resp.status ≤ 299))) ∧
    (∀ (pr_number : Nat) (resp : HttpResponse),
      ¬(200 ≤ resp.status ∧ resp.status ≤ 299) →
      post_comment pr_number resp =
        (["Posting comment to PR #" ++ toString pr_number ++ "...",
          "Error posting comment: " ++ toString resp.status,
          "Response: " ++ resp.text], 1)) := by
  refine ⟨?_, ?_, ?_, ?_⟩
  · intro prs cps rj fetch resp h
    simp [SummarizeFailure.main, h]
  · intro prs cps rj fetch resp h
    cases hpr : (get_pr_for_workflow_run prs cps).1 with
    | none => simp [SummarizeFailure.main, hpr]
    | some pr => simp [SummarizeFailure.main, hpr, h]
  · intro prs cps rj fetch resp hpr hj
    cases hpr' : (get_pr_for_workflow_run prs cps).1 with
    | none => exact absurd hpr' hpr
    | some pr =>
      cases hj' : get_failed_jobs rj with
      | nil => exact absurd hj' hj
      | cons j0 rest =>
        by_cases h2 : 200 ≤ resp.status ∧ resp.status ≤ 299
        · constructor <;> simp [SummarizeFailure.main, hpr', hj', post_comment, h2]
        · constructor <;> simp [SummarizeFailure.main, hpr', hj', post_comment, h2]
  · intro pr_number resp h
    simp [post_comment, h]

/-- Witness for C5: early exits return 0; with one failed job a 500
response makes the run exit 1, with the status and body among the printed
lines. -/
theorem main_exit_code_spec_witness :
    (SummarizeFailure.main [] [] none (fun _ => "") ⟨200, "ok"⟩).exit_code = 0 ∧
    (SummarizeFailure.main [⟨5⟩] [] (some []) (fun _ => "") ⟨200, "ok"⟩).exit_code = 0 ∧
    (SummarizeFailure.main [⟨5⟩] []
        (some [⟨1, "a", some "failure", some [], "h", "r", 1⟩])
        (fun _ => "") ⟨500, "boom"⟩).exit_code = 1 ∧
    post_comment 5 ⟨500, "boom"⟩ =
      (["Posting comment to PR #" ++ toString 5 ++ "...",
        "Error posting comment: " ++ toString 500,
        "Response: " ++ "boom"], 1) :=
  ⟨main_exit_code_spec.1 [] [] none (fun _ => "") ⟨200, "ok"⟩ rfl,
    main_exit_code_spec.2.1 [⟨5⟩] [] (some []) (fun _ => "") ⟨200, "ok"⟩ rfl,
    (main_exit_code_spec.2.2.1 [⟨5⟩] []
        (some [⟨1, "a", some "failure", some [], "h", "r", 1⟩])
        (fun _ => "") ⟨500, "boom"⟩ (by decide) (by decide)).2.mpr (by decide),
    main_exit_code_spec.2.2.2 5 ⟨500, "boom"⟩ (by decide)⟩
